import Mathlib

/-!
Formal model of the `Sidebar` navigation component of the DUI component
gallery (`src/app/page.tsx`, lines 1136-1271).

The component's logic is embedded shallowly:

* `SidebarItem` mirrors the `SidebarItem` interface: `icon` and `onClick`
  are modelled by their presence (a `Bool`, since only truthiness and
  invocation matter), `badge` by an optional string (truthiness of a badge
  is non-emptiness), `children` by an optional list, `category` by an
  optional string.
* `toggleExpanded`, `filteredItems`, `categories` and the JSX render tree
  are transcribed from the source; the render output is reified as
  `RenderedRow` / `CategoryGroup` / `RenderedSidebar` values recording
  exactly the data the JSX emits (which spans, headings and nested rows
  appear, with which text).
* JavaScript string helpers `toLowerCase` and `includes` are modelled by
  `jsToLower` and `jsIncludes` over the underlying character lists.
* The row click handler is `handleClick`, returning the successor
  expanded-state together with whether the item's own `onClick` callback
  was invoked.
-/

/-- Character-list version of JavaScript `String.prototype.startsWith`:
`leadsWith sub hay` holds when `sub` is an initial segment of `hay`. -/
def leadsWith : List Char → List Char → Bool
  | [], _ => true
  | _ :: _, [] => false
  | a :: as, b :: bs => a == b && leadsWith as bs

/-- Character-list version of JavaScript `String.prototype.includes`:
`jsIncludesL sub hay` holds when `sub` occurs contiguously in `hay`. -/
def jsIncludesL (sub : List Char) : List Char → Bool
  | [] => leadsWith sub []
  | b :: bs => leadsWith sub (b :: bs) || jsIncludesL sub bs

/-- JavaScript `s.includes(sub)` on strings. -/
def jsIncludes (s sub : String) : Bool :=
  jsIncludesL sub.data s.data

/-- JavaScript `s.toLowerCase()` (ASCII case mapping). -/
def jsToLower (s : String) : String :=
  String.mk (s.data.map Char.toLower)

/-- The `SidebarItem` interface of the source (page.tsx:1136-1145).
`icon` and `onClick` record presence of the optional react node / callback;
`badge` is `none` when absent. `children` is `none` when the field is
absent and `some cs` when present — in particular `some []` (an empty
array, which is truthy in JavaScript) is distinct from `none`. -/
inductive SidebarItem : Type where
  | mk (id : String) (label : String) (icon : Bool) (badge : Option String)
       (active : Bool) (onClick : Bool) (children : Option (List SidebarItem))
       (category : Option String) : SidebarItem

def SidebarItem.id : SidebarItem → String
  | .mk i _ _ _ _ _ _ _ => i

def SidebarItem.label : SidebarItem → String
  | .mk _ l _ _ _ _ _ _ => l

def SidebarItem.icon : SidebarItem → Bool
  | .mk _ _ ic _ _ _ _ _ => ic

def SidebarItem.badge : SidebarItem → Option String
  | .mk _ _ _ b _ _ _ _ => b

def SidebarItem.active : SidebarItem → Bool
  | .mk _ _ _ _ a _ _ _ => a

def SidebarItem.onClick : SidebarItem → Bool
  | .mk _ _ _ _ _ oc _ _ => oc

def SidebarItem.children : SidebarItem → Option (List SidebarItem)
  | .mk _ _ _ _ _ _ ch _ => ch

def SidebarItem.category : SidebarItem → Option String
  | .mk _ _ _ _ _ _ _ c => c

/-- The filter predicate of `filteredItems` (page.tsx:1166-1169):
`item.label.toLowerCase().includes(q.toLowerCase()) ||
 item.category?.toLowerCase().includes(q.toLowerCase())`.
When `category` is absent, optional chaining makes the second disjunct
`undefined`, hence falsy. -/
def matchesFilter (searchQuery : String) (item : SidebarItem) : Bool :=
  jsIncludes (jsToLower item.label) (jsToLower searchQuery) ||
    (match item.category with
     | some c => jsIncludes (jsToLower c) (jsToLower searchQuery)
     | none => false)

/-- `filteredItems` (page.tsx:1166-1169). -/
def filteredItems (items : List SidebarItem) (searchQuery : String) :
    List SidebarItem :=
  items.filter (matchesFilter searchQuery)

/-- `toggleExpanded` (page.tsx:1158-1164): remove every occurrence of `id`
when present, append it otherwise. -/
def toggleExpanded (prev : List String) (id : String) : List String :=
  if prev.contains id then prev.filter (fun item => item != id)
  else prev ++ [id]

/-- JavaScript truthiness of the optional `badge` value (the empty string
is falsy). -/
def truthyBadge : Option String → Bool
  | none => false
  | some b => b != ""

/-- One rendered entry row (the `<button>` plus the conditionally rendered
block of child rows below it, page.tsx:1171-1215). `label`, `badge` record
the text spans actually emitted (`none` when suppressed), `chevron` the
expand indicator, `padding` the computed left inset, `children` the nested
rows rendered beneath the button. -/
inductive RenderedRow : Type where
  | mk (id : String) (hasIcon : Bool) (label : Option String)
       (badge : Option String) (chevron : Bool) (padding : Nat)
       (children : List RenderedRow) : RenderedRow

def RenderedRow.id : RenderedRow → String
  | .mk i _ _ _ _ _ _ => i

def RenderedRow.hasIcon : RenderedRow → Bool
  | .mk _ ic _ _ _ _ _ => ic

def RenderedRow.label : RenderedRow → Option String
  | .mk _ _ l _ _ _ _ => l

def RenderedRow.badge : RenderedRow → Option String
  | .mk _ _ _ b _ _ _ => b

def RenderedRow.chevron : RenderedRow → Bool
  | .mk _ _ _ _ c _ _ => c

def RenderedRow.padding : RenderedRow → Nat
  | .mk _ _ _ _ _ p _ => p

def RenderedRow.children : RenderedRow → List RenderedRow
  | .mk _ _ _ _ _ _ cs => cs

mutual

/-- `renderSidebarItem` (page.tsx:1171-1215). The icon span renders
whenever `item.icon` is truthy; the label, badge and chevron spans render
only when not collapsed; the child rows render only when not collapsed,
`item.children` is truthy (present — an empty array is truthy) and the
item's id is in the expanded list. -/
def renderSidebarItem (collapsed : Bool) (expandedItems : List String) :
    SidebarItem → Nat → RenderedRow
  | .mk i l ic b _act _oc ch _cat, level =>
    RenderedRow.mk i ic
      (if collapsed then none else some l)
      (if collapsed then none else if truthyBadge b then b else none)
      (!collapsed && ch.isSome)
      (level * 12 + 12)
      (match ch with
       | some cs =>
         if !collapsed && expandedItems.contains i then
           renderSidebarList collapsed expandedItems cs (level + 1)
         else []
       | none => [])

/-- `item.children.map(child => renderSidebarItem(child, level + 1))`. -/
def renderSidebarList (collapsed : Bool) (expandedItems : List String) :
    List SidebarItem → Nat → List RenderedRow
  | [], _ => []
  | c :: cs, level =>
    renderSidebarItem collapsed expandedItems c level ::
      renderSidebarList collapsed expandedItems cs level

end

/-- Insertion-order deduplication, as performed by a JavaScript `Set`
constructed from a list (first occurrence kept). -/
def dedupeAux (seen : List String) : List String → List String
  | [] => []
  | x :: xs =>
    if seen.contains x then dedupeAux seen xs
    else x :: dedupeAux (x :: seen) xs

/-- `[...new Set(l)]` for a list of strings. -/
def jsSetOfList (l : List String) : List String :=
  dedupeAux [] l

/-- `categories` (page.tsx:1217):
`[...new Set(items.map(item => item.category).filter(Boolean))]`.
`filter(Boolean)` drops `undefined` and the falsy empty string. -/
def categories (items : List SidebarItem) : List String :=
  jsSetOfList (items.filterMap (fun item =>
    match item.category with
    | some c => if c != "" then some c else none
    | none => none))

/-- One rendered category section (page.tsx:1252-1261): the heading `<div>`
with the category text, followed by the rows of the filtered items of that
category. -/
structure CategoryGroup : Type where
  heading : String
  rows : List RenderedRow

/-- The text of the results indicator:
`` `${count} results for "${q}"` ``. -/
def resultsLine (count : Nat) (searchQuery : String) : String :=
  toString count ++ " results for \"" ++ searchQuery ++ "\""

/-- The rendered `<nav>` body of the sidebar (page.tsx:1245-1268):
the results indicator (present only when `searchQuery` is truthy), the
category sections, and the trailing `No components found` placeholder. -/
structure RenderedSidebar : Type where
  indicator : Option String
  groups : List CategoryGroup
  noResults : Bool

/-- The `Sidebar` component's render of its `<nav>` body
(page.tsx:1245-1268), as a function of the `items` prop, the two pieces of
internal state and the `collapsed` prop. Headings are emitted for every
element of `categories` (computed from the full, unfiltered `items`), with
no `collapsed` guard; each section's rows come from
`filteredItems.filter(item => item.category === category)`. -/
def renderSidebar (items : List SidebarItem) (searchQuery : String)
    (collapsed : Bool) (expandedItems : List String) : RenderedSidebar :=
  { indicator :=
      if searchQuery != "" then
        some (resultsLine (filteredItems items searchQuery).length searchQuery)
      else none
    groups :=
      (categories items).map (fun category =>
        { heading := category
          rows :=
            ((filteredItems items searchQuery).filter
              (fun item => item.category == some category)).map
              (fun item => renderSidebarItem collapsed expandedItems item 0) })
    noResults := (filteredItems items searchQuery).length == 0 }

/-- The row click handler (page.tsx:1174-1180):
`if (item.children) { toggleExpanded(item.id) } else { item.onClick?.() }`.
Returns the successor expanded-state and whether the item's own `onClick`
callback was invoked. The test is JavaScript truthiness of
`item.children`, so a present-but-empty array takes the toggle branch. -/
def handleClick (item : SidebarItem) (expandedItems : List String) :
    List String × Bool :=
  match item.children with
  | some _ => (toggleExpanded expandedItems item.id, false)
  | none => (expandedItems, item.onClick)

/-- Whether an item has a non-empty `children` sequence (the notion the
specification uses to delimit expandable groups). -/
def nonEmptyChildren (item : SidebarItem) : Bool :=
  match item.children with
  | some (_ :: _) => true
  | _ => false

/-- The two pieces of internal component state (page.tsx:1155-1156). -/
structure SidebarState : Type where
  expandedItems : List String
  searchQuery : String

/-- The expand-toggle event: `setExpandedItems` updates only the
expanded-items state. -/
def toggleExpandEvent (st : SidebarState) (id : String) : SidebarState :=
  { st with expandedItems := toggleExpanded st.expandedItems id }

/-- The search-input change event: `setSearchQuery` updates only the
search-query state. -/
def setSearchQueryEvent (st : SidebarState) (q : String) : SidebarState :=
  { st with searchQuery := q }

/-- The three-entry collection of the specification's filtering scenario. -/
def scenarioItems : List SidebarItem :=
  [ .mk "a" "Button" false none false false none (some "components"),
    .mk "b" "Avatar" false none false false none (some "components"),
    .mk "c" "Hero" false none false false none (some "blocks") ]

/-- An item whose `children` field is a present but empty array. -/
def emptyChildrenItem : SidebarItem :=
  .mk "x" "Empty group" false none false true (some []) none

/-- An item with icon, badge and category, for the collapsed-mode display
scenario. -/
def collapsedDemoItem : SidebarItem :=
  .mk "a" "Alpha" true (some "3") false false none (some "general")

/-- A group item with one nested child, for expansion scenarios. -/
def docsGroupItem : SidebarItem :=
  .mk "x" "Docs" false none false false
    (some [.mk "x1" "Report" false none false true none none]) none

/-- A top-level item with no `category` field. -/
def noCategoryItem : SidebarItem :=
  .mk "n" "Zed" false none false false none none

/-! Auxiliary lemmas shared by the claim theorems. -/

lemma jsIncludes_empty (s : String) : jsIncludes s "" = true := by
  show jsIncludesL [] s.data = true
  cases s.data with
  | nil => rfl
  | cons b bs => simp [jsIncludesL, leadsWith]

lemma matchesFilter_empty (item : SidebarItem) : matchesFilter "" item = true := by
  unfold matchesFilter
  rw [show jsToLower "" = "" from rfl, jsIncludes_empty, Bool.true_or]

lemma contains_iff (l : List String) (a : String) : l.contains a = true ↔ a ∈ l :=
  List.elem_iff

/-- Membership after one toggle: the toggled id flips, every other id is
untouched. -/
lemma mem_toggle (s : List String) (x y : String) :
    y ∈ toggleExpanded s x ↔ (y = x ∧ x ∉ s) ∨ (y ≠ x ∧ y ∈ s) := by
  unfold toggleExpanded
  by_cases h : x ∈ s
  · rw [if_pos ((contains_iff s x).mpr h)]
    simp only [List.mem_filter, bne_iff_ne]
    constructor
    · rintro ⟨hy, hne⟩; exact Or.inr ⟨hne, hy⟩
    · rintro (⟨rfl, hx⟩ | ⟨hne, hy⟩)
      · exact absurd h hx
      · exact ⟨hy, hne⟩
  · rw [if_neg (fun hc => h ((contains_iff s x).mp hc))]
    simp only [List.mem_append, List.mem_singleton]
    by_cases hxy : y = x <;> simp [hxy, h]

lemma nodup_toggle (s : List String) (x : String) (hs : s.Nodup) :
    (toggleExpanded s x).Nodup := by
  unfold toggleExpanded
  by_cases h : x ∈ s
  · rw [if_pos ((contains_iff s x).mpr h)]
    exact hs.filter _
  · rw [if_neg (fun hc => h ((contains_iff s x).mp hc))]
    rw [List.nodup_append]
    refine ⟨hs, List.nodup_singleton x, ?_⟩
    intro a ha hax
    rw [List.mem_singleton] at hax
    subst hax
    exact h ha

lemma foldl_toggle_nodup (ops : List String) :
    ∀ s : List String, s.Nodup → (ops.foldl toggleExpanded s).Nodup := by
  induction ops with
  | nil => intro s hs; exact hs
  | cons op rest ih =>
    intro s hs
    exact ih (toggleExpanded s op) (nodup_toggle s op hs)

lemma renderItem_id (c : Bool) (e : List String) (item : SidebarItem) (lvl : Nat) :
    (renderSidebarItem c e item lvl).id = item.id := by
  cases item
  rfl

/-- The heading texts of the rendered category sections are exactly
`categories items`, for any filter text, display mode and expansion
state. -/
lemma headings_renderSidebar (items : List SidebarItem) (q : String) (c : Bool)
    (e : List String) :
    (renderSidebar items q c e).groups.map CategoryGroup.heading = categories items := by
  simp only [renderSidebar, List.map_map]
  exact List.map_id _

/-- The ids of each rendered section's rows are the ids of the filtered
items carrying that section's category. -/
lemma rowIds_renderSidebar (items : List SidebarItem) (q : String) (c : Bool)
    (e : List String) :
    (renderSidebar items q c e).groups.map (fun g => g.rows.map RenderedRow.id) =
      (categories items).map (fun cat =>
        ((filteredItems items q).filter
          (fun item => item.category == some cat)).map SidebarItem.id) := by
  simp only [renderSidebar, List.map_map]
  apply List.map_congr_left
  intro cat _
  simp only [Function.comp_apply, List.map_map]
  apply List.map_congr_left
  intro item _
  exact renderItem_id c e item 0

/-! Claim theorems. -/

/-- Claim C1, counterexample. In the specification's scenario (entries
Button/components, Avatar/components, Hero/blocks, filter text `he`) the
claim asserts the `components` heading is not rendered; the code renders a
heading for every category of the full collection, so the rendered groups
are a `components` section with zero rows followed by a `blocks` section
with the single `Hero` row. -/
theorem scenario_components_heading_rendered :
    (renderSidebar scenarioItems "he" false []).groups.map CategoryGroup.heading =
      ["components", "blocks"] ∧
    (renderSidebar scenarioItems "he" false []).groups.map
      (fun g => g.rows.map RenderedRow.id) = [[], ["c"]] := by
  exact ⟨by decide, by decide⟩

/-- Claim C1, amended. For every entry collection and filter text, the
rendered rows exclude every entry failing the case-insensitive
label-or-category match (each section's row ids are exactly the ids of the
filtered items of that category), but a category's heading is rendered
whenever the category occurs in the full, unfiltered collection — also
with zero matching entries; in the scenario both the `components` heading
(zero rows) and the `blocks` heading (one row, `Hero`) are rendered. -/
theorem headings_from_full_collection :
    (∀ (items : List SidebarItem) (q : String) (collapsed : Bool) (expanded : List String),
       (renderSidebar items q collapsed expanded).groups.map CategoryGroup.heading =
         categories items ∧
       (renderSidebar items q collapsed expanded).groups.map
         (fun g => g.rows.map RenderedRow.id) =
         (categories items).map (fun cat =>
           ((filteredItems items q).filter
             (fun item => item.category == some cat)).map SidebarItem.id)) ∧
    ((renderSidebar scenarioItems "he" false []).groups.map CategoryGroup.heading =
       ["components", "blocks"] ∧
     (renderSidebar scenarioItems "he" false []).groups.map
       (fun g => g.rows.map RenderedRow.id) = [[], ["c"]]) := by
  refine ⟨?_, by decide, by decide⟩
  intro items q collapsed expanded
  exact ⟨headings_renderSidebar items q collapsed expanded,
         rowIds_renderSidebar items q collapsed expanded⟩

/-- Claim C2, counterexample. An entry whose `children` field is a present
but empty array has no non-empty children sequence, yet clicking it takes
the toggle branch (the truthiness test `if (item.children)` accepts an
empty array): from the empty expanded-state the click yields `["x"]` and
does not invoke the entry's callback, where the claim requires the
unchanged state `[]` with the callback invoked. -/
theorem empty_children_click_counterexample :
    nonEmptyChildren emptyChildrenItem = false ∧
    handleClick emptyChildrenItem [] ≠ (([] : List String), true) ∧
    handleClick emptyChildrenItem [] = (["x"], false) := by
  refine ⟨rfl, ?_, rfl⟩
  intro h
  simp [handleClick, emptyChildrenItem, SidebarItem.children, toggleExpanded] at h

/-- Claim C2, amended. Clicking an entry's row toggles that entry's
membership in the expanded-set if and only if the entry's `children` field
is present (also when it is the empty sequence), and in that case the
entry's own selection callback is never invoked; when the `children` field
is absent, the click invokes the entry's own callback (when one is
supplied) and the expanded-set is unchanged. -/
theorem click_dispatch_on_children_presence :
    ∀ (item : SidebarItem) (s : List String),
    (item.children.isSome = true →
       handleClick item s = (toggleExpanded s item.id, false) ∧
       (item.id ∈ (handleClick item s).1 ↔ item.id ∉ s)) ∧
    (item.children = none → handleClick item s = (s, item.onClick)) := by
  intro item s
  constructor
  · intro h
    rcases hch : item.children with _ | cs
    · rw [hch] at h; simp at h
    · have h1 : handleClick item s = (toggleExpanded s item.id, false) := by
        unfold handleClick
        rw [hch]
      refine ⟨h1, ?_⟩
      rw [h1]
      show item.id ∈ toggleExpanded s item.id ↔ item.id ∉ s
      rw [mem_toggle]
      by_cases hx : item.id ∈ s <;> simp [hx]
  · intro h
    unfold handleClick
    rw [h]

/-- Claim C3. Filtering returns only entries whose label or category
contains the query as a case-insensitive substring, and filtering is
idempotent: filtering the filtered result by the same query again yields
the same result. -/
theorem filter_sound_idempotent :
    (∀ (items : List SidebarItem) (q : String) (item : SidebarItem),
       item ∈ filteredItems items q →
       jsIncludes (jsToLower item.label) (jsToLower q) = true ∨
       ∃ c, item.category = some c ∧ jsIncludes (jsToLower c) (jsToLower q) = true) ∧
    (∀ (items : List SidebarItem) (q : String),
       filteredItems (filteredItems items q) q = filteredItems items q) := by
  constructor
  · intro items q item hmem
    have hm : matchesFilter q item = true := (List.mem_filter.mp hmem).2
    unfold matchesFilter at hm
    cases hc : item.category with
    | none => simp [hc] at hm; exact Or.inl hm
    | some c =>
      rw [hc] at hm
      rcases Bool.or_eq_true_iff.mp hm with h | h
      · exact Or.inl h
      · exact Or.inr ⟨c, rfl, h⟩
  · intro items q
    simp [filteredItems, List.filter_filter]

/-- Claim C4. Toggling an entry with children twice in succession returns
the expanded-set to its prior state. The expanded-set is the set of ids the
component observes through `expandedItems.includes`; the specification's
data model likewise treats the state as a set of ids. The double toggle
restores exactly that set (the backing list may list the surviving ids in a
different order, which no observation of the component distinguishes). -/
theorem toggle_twice_restores (s : List String) (item : SidebarItem)
    (h : item.children.isSome = true) (y : String) :
    y ∈ toggleExpanded (toggleExpanded s item.id) item.id ↔ y ∈ s := by
  simp only [mem_toggle]
  by_cases hxy : y = item.id <;> by_cases hxs : item.id ∈ s <;> simp [hxy, hxs]

/-- Claim C4, witness: the double toggle of the `Docs` group id over the
state holding only `b` leaves membership of `b` unchanged. -/
theorem toggle_involution_witness :
    (SidebarItem.children docsGroupItem).isSome = true ∧
    ("b" ∈ toggleExpanded (toggleExpanded ["b"] (SidebarItem.id docsGroupItem))
        (SidebarItem.id docsGroupItem) ↔ "b" ∈ (["b"] : List String)) :=
  ⟨by decide, toggle_twice_restores ["b"] docsGroupItem (by decide) "b"⟩

/-- Claim C5. Filtering with the empty string returns exactly the input
collection, with no exclusions, in the original order (the empty query is a
substring of every lowercased label, so the filter predicate accepts every
entry). -/
theorem empty_filter_identity (items : List SidebarItem) :
    filteredItems items "" = items :=
  List.filter_eq_self.mpr (fun item _ => matchesFilter_empty item)

/-- Claim C6. The results indicator is rendered if and only if the filter
text is non-empty; when rendered it reports the count of entries remaining
after filtering across all categories; and in the specification's scenario
it reads exactly `1 results for "he"`. -/
theorem results_indicator_spec :
    (∀ (items : List SidebarItem) (q : String) (collapsed : Bool) (expanded : List String),
       ((renderSidebar items q collapsed expanded).indicator).isSome = (q != "")) ∧
    (∀ (items : List SidebarItem) (q : String) (collapsed : Bool) (expanded : List String),
       (renderSidebar items q collapsed expanded).indicator =
         if q != "" then some (resultsLine (filteredItems items q).length q) else none) ∧
    (renderSidebar scenarioItems "he" false []).indicator = some "1 results for \"he\"" := by
  refine ⟨?_, ?_, by decide⟩
  · intro items q collapsed expanded
    cases h : (q != "") <;> simp [renderSidebar, h]
  · intro items q collapsed expanded
    rfl

/-- Claim C7, counterexample. With display mode collapsed the category
heading `general` of a one-entry collection is still rendered (the claim
asserts headings are suppressed), and the `Report` child row of the
expanded `Docs` group — a click target available before collapsing — is
not rendered at all in collapsed mode. -/
theorem collapsed_heading_and_children_counterexample :
    (renderSidebar [collapsedDemoItem] "" true []).groups.map CategoryGroup.heading =
      ["general"] ∧
    (renderSidebarItem true ["x"] docsGroupItem 0).children = [] ∧
    (renderSidebarItem false ["x"] docsGroupItem 0).children.map RenderedRow.id =
      ["x1"] := by
  exact ⟨by decide, rfl, by decide⟩

/-- Claim C7, amended. Collapsed display mode suppresses every row's label,
badge and expand indicator and suppresses the nested child rows, while
preserving each top-level row's icon/click target (the row keeps the
entry's id and icon); category headings are not suppressed, and the
grouping (headings and the ids of each section's rows) is identical to the
expanded display mode. -/
theorem collapsed_mode_rendering :
    (∀ (expanded : List String) (item : SidebarItem) (level : Nat),
       (renderSidebarItem true expanded item level).label = none ∧
       (renderSidebarItem true expanded item level).badge = none ∧
       (renderSidebarItem true expanded item level).chevron = false ∧
       (renderSidebarItem true expanded item level).children = [] ∧
       (renderSidebarItem true expanded item level).id = item.id ∧
       (renderSidebarItem true expanded item level).hasIcon = item.icon) ∧
    (∀ (items : List SidebarItem) (q : String) (expanded : List String),
       (renderSidebar items q true expanded).groups.map CategoryGroup.heading =
         (renderSidebar items q false expanded).groups.map CategoryGroup.heading ∧
       (renderSidebar items q true expanded).groups.map
         (fun g => g.rows.map RenderedRow.id) =
         (renderSidebar items q false expanded).groups.map
           (fun g => g.rows.map RenderedRow.id)) := by
  constructor
  · intro expanded item level
    cases item with
    | mk i l ic b a oc ch cat =>
      cases ch <;> exact ⟨rfl, rfl, rfl, rfl, rfl, rfl⟩
  · intro items q expanded
    exact ⟨(headings_renderSidebar items q true expanded).trans
             (headings_renderSidebar items q false expanded).symm,
           (rowIds_renderSidebar items q true expanded).trans
             (rowIds_renderSidebar items q false expanded).symm⟩

/-- Claim C8. Starting from the empty expanded-state, every sequence of
toggles preserves freedom from duplicates; toggling an absent id appends it
once at the end; toggling a present id removes every occurrence of it. -/
theorem expanded_set_invariants :
    (∀ ops : List String, (ops.foldl toggleExpanded []).Nodup) ∧
    (∀ (s : List String) (x : String), x ∉ s → toggleExpanded s x = s ++ [x]) ∧
    (∀ (s : List String) (x : String), x ∈ s →
       toggleExpanded s x = s.filter (fun b => b != x) ∧ x ∉ toggleExpanded s x) := by
  refine ⟨fun ops => foldl_toggle_nodup ops [] List.nodup_nil, ?_, ?_⟩
  · intro s x hx
    unfold toggleExpanded
    rw [if_neg (fun hc => hx ((contains_iff s x).mp hc))]
  · intro s x hx
    have hc := (contains_iff s x).mpr hx
    constructor
    · unfold toggleExpanded; rw [if_pos hc]
    · unfold toggleExpanded; rw [if_pos hc]
      simp [List.mem_filter]

/-- Claim C9. A top-level entry without a `category` field never produces a
rendered row: every row of every rendered section comes from a filtered
item whose category equals the section's heading, so not from that entry;
yet when the entry matches the filter it is a member of `filteredItems`,
whose length the results indicator reports. -/
theorem no_category_entries_not_rendered
    (items : List SidebarItem) (q : String) (collapsed : Bool)
    (expanded : List String) (e : SidebarItem)
    (hcat : e.category = none) (hmem : e ∈ items) :
    (∀ g, g ∈ (renderSidebar items q collapsed expanded).groups →
       ∀ r, r ∈ g.rows →
         ∃ it, it ∈ filteredItems items q ∧ it.category = some g.heading ∧
           it ≠ e ∧ r = renderSidebarItem collapsed expanded it 0) ∧
    (matchesFilter q e = true → e ∈ filteredItems items q) := by
  constructor
  · intro g hg r hr
    simp only [renderSidebar, List.mem_map] at hg
    obtain ⟨cat, hcatmem, rfl⟩ := hg
    simp only [List.mem_map] at hr
    obtain ⟨it, hit, rfl⟩ := hr
    have hitf := List.mem_filter.mp hit
    have hcatit : it.category = some cat := by
      have := hitf.2
      exact eq_of_beq this
    refine ⟨it, hitf.1, hcatit, ?_, rfl⟩
    intro heq
    rw [heq, hcat] at hcatit
    exact Option.noConfusion hcatit
  · intro hm
    exact List.mem_filter.mpr ⟨hmem, hm⟩

/-- Claim C9, witness: the category-less entry `Zed` in a singleton
collection matches the empty filter and is counted among the filtered
items. -/
theorem no_category_witness :
    SidebarItem.category noCategoryItem = none ∧
    noCategoryItem ∈ filteredItems [noCategoryItem] "" :=
  ⟨rfl, (no_category_entries_not_rendered [noCategoryItem] "" false [] noCategoryItem
          rfl (List.mem_singleton.mpr rfl)).2 (by decide)⟩

/-- Claim C10. The two pieces of internal state are independent: the
expand-toggle event changes only the expanded-items state (by
`toggleExpanded`) and leaves the search query unchanged, and the
search-change event replaces only the search query and leaves the
expanded-items state unchanged. -/
theorem state_independence (st : SidebarState) (id q : String) :
    (toggleExpandEvent st id).searchQuery = st.searchQuery ∧
    (setSearchQueryEvent st q).expandedItems = st.expandedItems ∧
    (toggleExpandEvent st id).expandedItems = toggleExpanded st.expandedItems id ∧
    (setSearchQueryEvent st q).searchQuery = q :=
  ⟨rfl, rfl, rfl, rfl⟩
